import Mathlib

/-!
Shallow embedding of the Expense Tracker application (src/app.py) and
verification of its specification claims.

The embedding models the persistent store (SQLAlchemy `User` and `Expense`
tables) as Lean lists, the Flask request handlers as pure state-passing
functions, and Python `float` amounts as exact rationals (every amount in
the claims is an exactly representable small decimal, for which IEEE double
addition is exact, so ℚ is a faithful model of the accumulations involved).
-/

/-- Calendar timestamp of an expense (the fields of `datetime` the program
observes: ordering of `Expense.date` and the year+month bucket used by the
monthly report).  Modelled as year/month/day. -/
structure Date where
  year : Nat
  month : Nat
  day : Nat
deriving DecidableEq

/-- Lexicographic `≤` on dates, the order SQL uses for `ORDER BY date`. -/
def dateLeB (a b : Date) : Bool :=
  decide (a.year < b.year ∨ (a.year = b.year ∧
    (a.month < b.month ∨ (a.month = b.month ∧ a.day ≤ b.day))))

/-- `a ≤ b` on (year, month) pairs, `pandas` ascending sort of month periods. -/
def monthLeB (a b : Nat × Nat) : Bool :=
  decide (a.1 < b.1 ∨ (a.1 = b.1 ∧ a.2 ≤ b.2))

/-- Werkzeug-style stored password hash: the salt together with the digest of
(salt, plaintext) under the one-way hash (`generate_password_hash` stores
"method$salt$digest"; the hash function itself is external and abstract). -/
structure StoredHash where
  salt : String
  digest : String
deriving DecidableEq

/-- `werkzeug.security.generate_password_hash`: salt the password and keep
the salt alongside the digest; the plaintext itself is never stored. -/
def generate_password_hash (hashFn : String → String → String)
    (salt password : String) : StoredHash :=
  ⟨salt, hashFn salt password⟩

/-- `werkzeug.security.check_password_hash`: re-hash the supplied password
with the stored salt and compare digests (never plaintext against plaintext). -/
def check_password_hash (hashFn : String → String → String)
    (stored : StoredHash) (password : String) : Bool :=
  hashFn stored.salt password == stored.digest

/-- Row of the `user` table (src/app.py lines 22-26). -/
structure User where
  id : Nat
  username : String
  password : StoredHash
deriving DecidableEq

/-- Row of the `expense` table (src/app.py lines 31-37). -/
structure Expense where
  id : Nat
  description : String
  amount : ℚ
  category : String
  date : Date
  user_id : Nat
deriving DecidableEq

/-- The persistent store: the two tables plus the autoincrement counters. -/
structure DB where
  users : List User
  expenses : List Expense
  nextUserId : Nat
  nextExpenseId : Nat
deriving DecidableEq

/-- Observable outcome of one request handler: an HTTP redirect carrying an
optional flashed notice, a 404 (`first_or_404` miss), or an unhandled Python
exception surfacing as a server error. -/
inductive Outcome where
  | redirect (target : String) (flash : Option String)
  | notFound
  | serverError (msg : String)
deriving DecidableEq

/-- Python `float(text)` on the plain decimal strings the form supplies:
optional sign, digits, optional fractional part; `none` when the text is not
parseable (where `float` raises `ValueError`). -/
def parseAmount (s : String) : Option ℚ :=
  let cs := s.data
  let signAndRest : ℚ × List Char :=
    match cs with
    | '-' :: r => (-1, r)
    | '+' :: r => (1, r)
    | _ => (1, cs)
  let sign := signAndRest.1
  let body := signAndRest.2
  let intPart := body.takeWhile Char.isDigit
  let rest := body.dropWhile Char.isDigit
  let natVal : List Char → Nat := fun l => l.foldl (fun n c => 10 * n + (c.toNat - 48)) 0
  match rest with
  | [] => if intPart.isEmpty then none else some (sign * (natVal intPart : ℚ))
  | '.' :: frac =>
      if frac.all Char.isDigit && !(intPart.isEmpty && frac.isEmpty) then
        some (sign * ((natVal intPart : ℚ) + (natVal frac : ℚ) / (10 : ℚ) ^ frac.length))
      else none
  | _ => none

/-- Insertion into a list sorted by the Boolean relation `le`. -/
def insertBy {α : Type} (le : α → α → Bool) (a : α) : List α → List α
  | [] => [a]
  | b :: l => if le a b then a :: b :: l else b :: insertBy le a l

/-- Insertion sort by the Boolean relation `le`. -/
def sortBy {α : Type} (le : α → α → Bool) : List α → List α
  | [] => []
  | a :: l => insertBy le a (sortBy le l)

/-- Defaultdict-style accumulation: add `a` to the total stored under key `k`,
appending the key (in first-occurrence position) when absent — the behaviour
of `category_totals[expense.category] += expense.amount` on a
`defaultdict(float)`, whose iteration order is key-insertion order. -/
def addToTotals {κ : Type} [BEq κ] (l : List (κ × ℚ)) (k : κ) (a : ℚ) :
    List (κ × ℚ) :=
  match l with
  | [] => [(k, a)]
  | (k0, t) :: rest =>
      if k0 == k then (k0, t + a) :: rest else (k0, t) :: addToTotals rest k a

/-- Total amount recorded under key `k` (0 when the key is absent).  Stated as
a filtered sum so that it is invariant under permutation of the entries. -/
def lookupQ {κ : Type} [BEq κ] (l : List (κ × ℚ)) (k : κ) : ℚ :=
  ((l.filter (fun p => p.1 == k)).map (fun p => p.2)).sum

/-- The `defaultdict(float)` category-totals loop shared by the bar chart
(src/app.py lines 50-52). -/
def categoryTotalsBar (expenses : List Expense) : List (String × ℚ) :=
  expenses.foldl (fun acc e => addToTotals acc e.category e.amount) []

/-- The `defaultdict(float)` category-totals loop written out a second time
inside `show_summary` for the pie chart (src/app.py lines 192-194). -/
def categoryTotalsPie (expenses : List Expense) : List (String × ℚ) :=
  expenses.foldl (fun acc e => addToTotals acc e.category e.amount) []

/-- `generate_category_bar_chart`: `None` when there is no category data,
otherwise the category → total mapping the bar chart renders. -/
def generate_category_bar_chart (expenses : List Expense) :
    Option (List (String × ℚ)) :=
  let ct := categoryTotalsBar expenses
  if ct.isEmpty then none else some ct

/-- The year+month bucket of an expense date (`pd.to_datetime(...).dt.to_period('M')`). -/
def monthKey (d : Date) : Nat × Nat := (d.year, d.month)

/-- `df.groupby('month')['amount'].sum().sort_index()`: sum amounts per
calendar-month bucket, then sort the buckets ascending by month. -/
def monthlyTotals (expenses : List Expense) : List ((Nat × Nat) × ℚ) :=
  sortBy (fun a b => monthLeB a.1 b.1)
    (expenses.foldl (fun acc e => addToTotals acc (monthKey e.date) e.amount) [])

/-- `generate_time_series_plot_matplotlib`: `None` on an empty expense list
(and on an empty grouped frame), otherwise the month → total series plotted. -/
def generate_time_series_plot (expenses : List Expense) :
    Option (List ((Nat × Nat) × ℚ)) :=
  if expenses.isEmpty then none
  else
    let mt := monthlyTotals expenses
    if mt.isEmpty then none else some mt

/-- `User.query.filter_by(username=...).first()`. -/
def findByUsername (db : DB) (username : String) : Option User :=
  db.users.find? (fun u => u.username == username)

/-- POST `/register` (src/app.py lines 93-108): duplicate username flashes a
notice and redirects back to registration without touching the store;
otherwise the salted hash of the password is persisted in a new `User` row. -/
def register (hashFn : String → String → String) (salt : String)
    (db : DB) (username password : String) : DB × Outcome :=
  match findByUsername db username with
  | some _ =>
      (db, .redirect "register" (some "Username already exists. Please choose another one."))
  | none =>
      let hashed := generate_password_hash hashFn salt password
      let newUser : User := ⟨db.nextUserId, username, hashed⟩
      ({ db with users := db.users ++ [newUser], nextUserId := db.nextUserId + 1 },
       .redirect "login" (some "Registration successful! Please log in."))

/-- POST `/login` (src/app.py lines 110-122): look the user up by username,
verify via `check_password_hash`; on success the session is bound to the
user's id, on failure flash "Invalid username or password." and redirect back. -/
def login (hashFn : String → String → String)
    (db : DB) (username password : String) : Option Nat × Outcome :=
  match findByUsername db username with
  | some u =>
      if check_password_hash hashFn u.password password then
        (some u.id, .redirect "index" none)
      else
        (none, .redirect "login" (some "Invalid username or password."))
  | none => (none, .redirect "login" (some "Invalid username or password."))

/-- POST `/add_expense` (src/app.py lines 135-146): `float(form['amount'])`
raises an uncaught `ValueError` on unparseable text (nothing is committed);
otherwise a new `Expense` owned by the current user, dated now, is persisted. -/
def add_expense (db : DB) (uid : Nat)
    (description amountText category : String) (now : Date) : DB × Outcome :=
  match parseAmount amountText with
  | none => (db, .serverError "ValueError: could not convert string to float")
  | some amount =>
      let e : Expense :=
        ⟨db.nextExpenseId, description, amount, category, now, uid⟩
      ({ db with expenses := db.expenses ++ [e], nextExpenseId := db.nextExpenseId + 1 },
       .redirect "view_expenses" none)

/-- The owner-scoped lookup `Expense.query.filter_by(id=id, user_id=uid)`. -/
def ownedById (db : DB) (uid eid : Nat) : Option Expense :=
  db.expenses.find? (fun e => e.id == eid && e.user_id == uid)

/-- POST `/edit_expense/<id>` (src/app.py lines 148-159): `first_or_404` on
the owner-scoped lookup; on unparseable amount `float` raises before the
commit, so the store is unchanged; otherwise description/amount/category of
the matched row are overwritten and committed. -/
def edit_expense (db : DB) (uid eid : Nat)
    (description amountText category : String) : DB × Outcome :=
  match ownedById db uid eid with
  | none => (db, .notFound)
  | some _ =>
      match parseAmount amountText with
      | none => (db, .serverError "ValueError: could not convert string to float")
      | some amount =>
          ({ db with
              expenses := db.expenses.map (fun e =>
                if e.id == eid && e.user_id == uid then
                  { e with description := description, amount := amount,
                           category := category }
                else e) },
           .redirect "view_expenses" (some "Expense updated successfully!"))

/-- GET `/delete_expense/<id>` (src/app.py lines 177-184): `first_or_404` on
the owner-scoped lookup, then the row is deleted and the deletion committed. -/
def delete_expense (db : DB) (uid eid : Nat) : DB × Outcome :=
  match ownedById db uid eid with
  | none => (db, .notFound)
  | some _ =>
      ({ db with
          expenses := db.expenses.filter (fun e =>
            !(e.id == eid && e.user_id == uid)) },
       .redirect "view_expenses" (some "Expense deleted successfully!"))

/-- `/view_expenses` (src/app.py lines 161-175): the current user's expenses
ordered by date descending, restricted to `category_filter` when it is
present, non-empty (Python truthiness) and not the sentinel "all"; plus the
sorted distinct categories of the user with "all" prepended. -/
def view_expenses (db : DB) (uid : Nat) (category_filter : Option String) :
    List Expense × List String :=
  let sorted :=
    sortBy (fun a b => dateLeB b.date a.date)
      (db.expenses.filter (fun e => e.user_id == uid))
  let expenses :=
    match category_filter with
    | some cf =>
        if cf ≠ "" && cf ≠ "all" then
          sorted.filter (fun e => e.category == cf)
        else sorted
    | none => sorted
  let all_categories :=
    sortBy (fun a b : String => decide (a ≤ b))
      ((db.expenses.filter (fun e => e.user_id == uid)).map
        (fun e => e.category)).dedup
  (expenses, "all" :: all_categories)

/-- The data `show_summary` (src/app.py lines 186-230) hands to the template:
the three chart payloads and the two JSON exports.  `monthly_totals_json` is
`json.dumps(dict(sorted(defaultdict(float).items())))` — a freshly created
empty defaultdict, i.e. always the empty mapping. -/
structure SummaryData where
  pie_totals : Option (List (String × ℚ))
  bar_totals : Option (List (String × ℚ))
  time_series : Option (List ((Nat × Nat) × ℚ))
  has_expenses : Bool
  category_totals_pie_json : List (String × ℚ)
  monthly_totals_json : List ((Nat × Nat) × ℚ)
deriving DecidableEq

/-- GET `/summary` (src/app.py lines 186-230). -/
def show_summary (db : DB) (uid : Nat) : SummaryData :=
  let expenses := db.expenses.filter (fun e => e.user_id == uid)
  let ctPie := categoryTotalsPie expenses
  { pie_totals := if ctPie.isEmpty then none else some ctPie
    bar_totals := generate_category_bar_chart expenses
    time_series := generate_time_series_plot expenses
    has_expenses := !expenses.isEmpty
    category_totals_pie_json := ctPie
    monthly_totals_json := [] }

/-! ### Helper lemmas: insertion sort -/

theorem insertBy_perm {α : Type} (le : α → α → Bool) (a : α) (l : List α) :
    (insertBy le a l).Perm (a :: l) := by
  induction l with
  | nil => exact List.Perm.refl _
  | cons b l ih =>
      unfold insertBy
      by_cases h : le a b = true
      · rw [if_pos h]
      · rw [if_neg h]
        exact (ih.cons b).trans (List.Perm.swap a b l)

theorem sortBy_perm {α : Type} (le : α → α → Bool) (l : List α) :
    (sortBy le l).Perm l := by
  induction l with
  | nil => exact List.Perm.refl _
  | cons a l ih => exact (insertBy_perm le a _).trans (ih.cons a)

theorem mem_insertBy {α : Type} {le : α → α → Bool} {a x : α} {l : List α} :
    x ∈ insertBy le a l ↔ x = a ∨ x ∈ l := by
  rw [(insertBy_perm le a l).mem_iff]
  simp

theorem insertBy_pairwise {α : Type} {le : α → α → Bool}
    (htot : ∀ a b, le a b = true ∨ le b a = true)
    (htrans : ∀ a b c, le a b = true → le b c = true → le a c = true)
    (a : α) {l : List α} (h : l.Pairwise (fun x y => le x y = true)) :
    (insertBy le a l).Pairwise (fun x y => le x y = true) := by
  induction l with
  | nil => simp [insertBy]
  | cons b l ih =>
      rcases List.pairwise_cons.1 h with ⟨hb, hl⟩
      unfold insertBy
      by_cases hab : le a b = true
      · simp only [if_pos hab]
        refine List.pairwise_cons.2 ⟨?_, h⟩
        intro y hy
        rcases List.mem_cons.1 hy with rfl | hy
        · exact hab
        · exact htrans a b y hab (hb y hy)
      · simp only [if_neg hab]
        have hba : le b a = true := (htot a b).resolve_left hab
        refine List.pairwise_cons.2 ⟨?_, ih hl⟩
        intro y hy
        rcases mem_insertBy.1 hy with rfl | hy
        · exact hba
        · exact hb y hy

theorem sortBy_pairwise {α : Type} {le : α → α → Bool}
    (htot : ∀ a b, le a b = true ∨ le b a = true)
    (htrans : ∀ a b c, le a b = true → le b c = true → le a c = true)
    (l : List α) :
    (sortBy le l).Pairwise (fun x y => le x y = true) := by
  induction l with
  | nil => simp [sortBy]
  | cons a l ih => exact insertBy_pairwise htot htrans a ih

theorem dateLeB_total (a b : Date) : dateLeB a b = true ∨ dateLeB b a = true := by
  simp only [dateLeB, decide_eq_true_eq]
  omega

theorem dateLeB_trans (a b c : Date) (h1 : dateLeB a b = true)
    (h2 : dateLeB b c = true) : dateLeB a c = true := by
  simp only [dateLeB, decide_eq_true_eq] at h1 h2 ⊢
  omega

theorem monthLeB_total (a b : Nat × Nat) :
    monthLeB a b = true ∨ monthLeB b a = true := by
  simp only [monthLeB, decide_eq_true_eq]
  omega

theorem monthLeB_trans (a b c : Nat × Nat) (h1 : monthLeB a b = true)
    (h2 : monthLeB b c = true) : monthLeB a c = true := by
  simp only [monthLeB, decide_eq_true_eq] at h1 h2 ⊢
  omega

/-! ### Helper lemmas: defaultdict-style totals -/

theorem lookupQ_cons {κ : Type} [BEq κ] (k0 : κ) (t : ℚ)
    (rest : List (κ × ℚ)) (k' : κ) :
    lookupQ ((k0, t) :: rest) k' =
      (if k0 == k' then t else 0) + lookupQ rest k' := by
  by_cases h : (k0 == k') = true
  · simp [lookupQ, List.filter_cons, h]
  · simp [lookupQ, List.filter_cons, h]

theorem lookupQ_addToTotals {κ : Type} [BEq κ] [LawfulBEq κ]
    (l : List (κ × ℚ)) (k k' : κ) (a : ℚ) :
    lookupQ (addToTotals l k a) k' =
      lookupQ l k' + (if k == k' then a else 0) := by
  induction l with
  | nil =>
      show lookupQ [(k, a)] k' = lookupQ [] k' + _
      rw [lookupQ_cons]
      simp [lookupQ]
  | cons p rest ih =>
      obtain ⟨k0, t⟩ := p
      simp only [addToTotals]
      by_cases h0 : (k0 == k) = true
      · have hk : k0 = k := eq_of_beq h0
        subst hk
        rw [if_pos h0, lookupQ_cons, lookupQ_cons]
        by_cases h1 : (k0 == k') = true
        · simp only [if_pos h1]
          ring
        · simp only [if_neg h1]
          ring
      · rw [if_neg h0, lookupQ_cons, lookupQ_cons, ih]
        ring

theorem mem_keys_addToTotals {κ : Type} [BEq κ] [LawfulBEq κ]
    {l : List (κ × ℚ)} {k k' : κ} {a : ℚ} :
    k' ∈ (addToTotals l k a).map Prod.fst ↔
      k' = k ∨ k' ∈ l.map Prod.fst := by
  induction l with
  | nil => simp [addToTotals]
  | cons p rest ih =>
      obtain ⟨k0, t⟩ := p
      unfold addToTotals
      by_cases h0 : k0 == k
      · have hk : k0 = k := eq_of_beq h0
        subst hk
        simp [h0]
      · simp only [if_neg h0, List.map_cons, List.mem_cons, ih]
        tauto

theorem nodup_keys_addToTotals {κ : Type} [BEq κ] [LawfulBEq κ]
    {l : List (κ × ℚ)} (k : κ) (a : ℚ)
    (h : (l.map Prod.fst).Nodup) :
    ((addToTotals l k a).map Prod.fst).Nodup := by
  induction l with
  | nil => simp [addToTotals]
  | cons p rest ih =>
      obtain ⟨k0, t⟩ := p
      rw [List.map_cons] at h
      rcases List.nodup_cons.1 h with ⟨hk0, hrest⟩
      simp only [addToTotals]
      by_cases h0 : (k0 == k) = true
      · rw [if_pos h0, List.map_cons, List.nodup_cons]
        exact ⟨hk0, hrest⟩
      · rw [if_neg h0, List.map_cons, List.nodup_cons]
        refine ⟨?_, ih hrest⟩
        intro hmem
        rcases mem_keys_addToTotals.1 hmem with rfl | hmem
        · exact h0 (by simp)
        · exact hk0 hmem

theorem lookupQ_perm {κ : Type} [BEq κ] {l l' : List (κ × ℚ)}
    (h : l.Perm l') (k : κ) : lookupQ l k = lookupQ l' k :=
  ((h.filter _).map _).sum_eq

theorem lookupQ_foldTotals {κ : Type} [BEq κ] [LawfulBEq κ] (key : Expense → κ)
    (es : List Expense) (acc : List (κ × ℚ)) (k : κ) :
    lookupQ (es.foldl (fun acc e => addToTotals acc (key e) e.amount) acc) k
      = lookupQ acc k +
        ((es.filter (fun e => key e == k)).map (fun e => e.amount)).sum := by
  induction es generalizing acc with
  | nil => simp
  | cons e es ih =>
      rw [List.foldl_cons, ih, lookupQ_addToTotals]
      by_cases h : (key e == k) = true
      · simp only [List.filter_cons, if_pos h, List.map_cons, List.sum_cons]
        ring
      · simp only [List.filter_cons, if_neg h]
        ring

theorem nodup_keys_foldTotals {κ : Type} [BEq κ] [LawfulBEq κ]
    (key : Expense → κ) (es : List Expense) (acc : List (κ × ℚ))
    (h : (acc.map Prod.fst).Nodup) :
    ((es.foldl (fun acc e => addToTotals acc (key e) e.amount) acc).map
      Prod.fst).Nodup := by
  induction es generalizing acc with
  | nil => exact h
  | cons e es ih => exact ih _ (nodup_keys_addToTotals _ _ h)

theorem addToTotals_ne_nil {κ : Type} [BEq κ]
    {l : List (κ × ℚ)} {k : κ} {a : ℚ} : addToTotals l k a ≠ [] := by
  cases l with
  | nil => simp [addToTotals]
  | cons p rest =>
      obtain ⟨k0, t⟩ := p
      simp only [addToTotals]
      split <;> simp

theorem foldTotals_ne_nil {κ : Type} [BEq κ] (key : Expense → κ)
    (es : List Expense) (acc : List (κ × ℚ)) (h : acc ≠ []) :
    es.foldl (fun acc e => addToTotals acc (key e) e.amount) acc ≠ [] := by
  induction es generalizing acc with
  | nil => exact h
  | cons e es ih => exact ih _ addToTotals_ne_nil

theorem sortBy_ne_nil {α : Type} {le : α → α → Bool} {l : List α}
    (h : l ≠ []) : sortBy le l ≠ [] := by
  intro hc
  have hlen := (sortBy_perm le l).length_eq
  rw [hc] at hlen
  exact h (List.length_eq_zero.1 hlen.symm)

/-! ### Helper lemmas: list frame conditions -/

theorem filter_map_eq_filter {α : Type} (p : α → Bool) (f : α → α)
    (h1 : ∀ a, p (f a) = p a) (h2 : ∀ a, p a = true → f a = a) (l : List α) :
    (l.map f).filter p = l.filter p := by
  induction l with
  | nil => rfl
  | cons a l ih =>
      rw [List.map_cons, List.filter_cons, List.filter_cons, h1 a]
      by_cases h : p a = true
      · rw [if_pos h, if_pos h, h2 a h, ih]
      · rw [if_neg h, if_neg h, ih]

theorem filter_filter_of_imp {α : Type} (p q : α → Bool)
    (h : ∀ a, p a = true → q a = true) (l : List α) :
    (l.filter q).filter p = l.filter p := by
  induction l with
  | nil => rfl
  | cons a l ih =>
      rw [List.filter_cons]
      by_cases hq : q a = true
      · rw [if_pos hq, List.filter_cons, List.filter_cons, ih]
      · rw [if_neg hq, List.filter_cons, ih]
        by_cases hp : p a = true
        · exact absurd (h a hp) hq
        · rw [if_neg hp]

theorem strLeB_total (a b : String) :
    decide (a ≤ b) = true ∨ decide (b ≤ a) = true := by
  simp only [decide_eq_true_eq]
  exact le_total a b

theorem strLeB_trans (a b c : String) (h1 : decide (a ≤ b) = true)
    (h2 : decide (b ≤ c) = true) : decide (a ≤ c) = true := by
  simp only [decide_eq_true_eq] at h1 h2 ⊢
  exact le_trans h1 h2

/-! ### Claim theorems -/

/-- C1: for any user `uid` and any expense id `eid` such that no expense with
that id is owned by `uid` (whether the id belongs to another user's expense or
to no expense at all — the two cases are indistinguishable in the conclusion),
both `edit_expense` and `delete_expense` return 404 Not Found and leave the
store untouched. -/
theorem expense_ops_non_owner_notFound (db : DB) (uid eid : Nat)
    (h : ∀ e ∈ db.expenses, e.id = eid → e.user_id ≠ uid)
    (description amountText category : String) :
    edit_expense db uid eid description amountText category = (db, Outcome.notFound)
    ∧ delete_expense db uid eid = (db, Outcome.notFound) := by
  have hfind : ownedById db uid eid = none := by
    unfold ownedById
    rw [List.find?_eq_none]
    intro e he hc
    simp only [Bool.and_eq_true, beq_iff_eq] at hc
    exact h e he hc.1 hc.2
  constructor
  · unfold edit_expense
    rw [hfind]
  · unfold delete_expense
    rw [hfind]

/-- Store with user 2 logged in and an existing expense (id 1) owned by user 1. -/
def dbOther : DB :=
  ⟨[⟨1, "alice", ⟨"s1", "h1"⟩⟩, ⟨2, "bob", ⟨"s2", "h2"⟩⟩],
   [⟨1, "groceries", 10, "food", ⟨2024, 1, 5⟩, 1⟩], 3, 2⟩

/-- Witness for C1: user 2 editing or deleting user 1's expense gets 404. -/
theorem expense_ops_non_owner_notFound_witness :
    (∀ e ∈ dbOther.expenses, e.id = 1 → e.user_id ≠ 2)
    ∧ (edit_expense dbOther 2 1 "x" "5" "misc" = (dbOther, Outcome.notFound)
       ∧ delete_expense dbOther 2 1 = (dbOther, Outcome.notFound)) :=
  ⟨by decide, expense_ops_non_owner_notFound dbOther 2 1 (by decide) "x" "5" "misc"⟩

/-- C3: when a user with the requested username already exists, `register`
flashes the duplicate-username notice, redirects back to registration, and
returns the store unchanged — no new `User` row and no change to the existing
account's stored password hash. -/
theorem register_duplicate_username (hashFn : String → String → String)
    (salt : String) (db : DB) (username password : String) (u : User)
    (hu : findByUsername db username = some u) :
    register hashFn salt db username password =
      (db, Outcome.redirect "register"
        (some "Username already exists. Please choose another one.")) := by
  unfold register
  rw [hu]

/-- Witness for C3: re-registering "alice" leaves the store unchanged. -/
theorem register_duplicate_username_witness :
    findByUsername dbOther "alice" = some ⟨1, "alice", ⟨"s1", "h1"⟩⟩
    ∧ register (fun s p => s ++ ":" ++ p) "s9" dbOther "alice" "newpw" =
        (dbOther, Outcome.redirect "register"
          (some "Username already exists. Please choose another one.")) :=
  ⟨by decide,
   register_duplicate_username (fun s p => s ++ ":" ++ p) "s9" dbOther "alice"
     "newpw" ⟨1, "alice", ⟨"s1", "h1"⟩⟩ (by decide)⟩

/-- Whether a handler outcome is an HTTP redirect (the claim's "transient
notice … with a redirect" requires this to be `true`). -/
def isRedirect : Outcome → Bool
  | Outcome.redirect _ _ => true
  | _ => false

/-- C8 counterexample: with an unparseable amount text, `add_expense` raises
an uncaught `ValueError` (server error) instead of flashing a notice and
redirecting — the claim's required redirect-with-notice does not happen. -/
theorem add_expense_invalid_amount_counterexample :
    (add_expense dbOther 2 "lunch" "abc" "food" ⟨2024, 1, 5⟩).2
      = Outcome.serverError "ValueError: could not convert string to float"
    ∧ isRedirect (add_expense dbOther 2 "lunch" "abc" "food" ⟨2024, 1, 5⟩).2
        = false := by
  constructor
  · rfl
  · rfl

/-- C8 amended: when the amount text is not parseable, the `float` call in
`add_expense` raises an unhandled `ValueError`; the request crashes with a
server error, nothing is persisted, and no notice or redirect is produced. -/
theorem add_expense_invalid_amount_crashes (db : DB) (uid : Nat)
    (description amountText category : String) (now : Date)
    (h : parseAmount amountText = none) :
    add_expense db uid description amountText category now
      = (db, Outcome.serverError "ValueError: could not convert string to float") := by
  unfold add_expense
  rw [h]

/-- Witness for the amended C8 at the unparseable input "abc". -/
theorem add_expense_invalid_amount_crashes_witness :
    parseAmount "abc" = none
    ∧ add_expense dbOther 2 "lunch" "abc" "food" ⟨2024, 1, 5⟩
      = (dbOther, Outcome.serverError "ValueError: could not convert string to float") :=
  ⟨by decide,
   add_expense_invalid_amount_crashes dbOther 2 "lunch" "abc" "food"
     ⟨2024, 1, 5⟩ (by decide)⟩

/-- C2: under the username-uniqueness invariant, login succeeds exactly when
some stored user has the requested username and the supplied password re-hashed
with the stored salt matches the stored digest (`check_password_hash`; no
plaintext comparison); success binds the session to that user's id, and
failure flashes the invalid-credentials notice and redirects back to login. -/
theorem login_success_iff (hashFn : String → String → String) (db : DB)
    (huniq : (db.users.map (fun u => u.username)).Nodup)
    (username password : String) :
    ((login hashFn db username password).1.isSome = true ↔
      ∃ u, u ∈ db.users ∧ u.username = username ∧
        check_password_hash hashFn u.password password = true)
    ∧ (∀ u, u ∈ db.users → u.username = username →
        check_password_hash hashFn u.password password = true →
        login hashFn db username password = (some u.id, Outcome.redirect "index" none))
    ∧ ((login hashFn db username password).1 = none →
        (login hashFn db username password).2 =
          Outcome.redirect "login" (some "Invalid username or password.")) := by
  cases hfind : findByUsername db username with
  | none =>
      have hfind' : db.users.find? (fun u => u.username == username) = none := hfind
      have hnone : ∀ u ∈ db.users, u.username ≠ username := by
        intro u hu heq
        have h2 := List.find?_eq_none.1 hfind' u hu
        simp [heq] at h2
      have hlog : login hashFn db username password
          = (none, Outcome.redirect "login" (some "Invalid username or password.")) := by
        unfold login
        rw [hfind]
      refine ⟨?_, ?_, ?_⟩
      · rw [hlog]
        simp only [Option.isSome_none, Bool.false_eq_true, false_iff]
        rintro ⟨u, hu, hname, _⟩
        exact hnone u hu hname
      · intro u hu hname _
        exact absurd hname (hnone u hu)
      · intro _
        rw [hlog]
  | some u =>
      have hfind' : db.users.find? (fun v => v.username == username) = some u := hfind
      have hu_mem : u ∈ db.users := List.mem_of_find?_eq_some hfind'
      have hu_name : u.username = username := by
        have := List.find?_some hfind'
        simpa [beq_iff_eq] using this
      by_cases hchk : check_password_hash hashFn u.password password = true
      · have hlog : login hashFn db username password
            = (some u.id, Outcome.redirect "index" none) := by
          unfold login
          rw [hfind]
          simp [hchk]
        refine ⟨?_, ?_, ?_⟩
        · rw [hlog]
          simp only [Option.isSome_some, true_iff]
          exact ⟨u, hu_mem, hu_name, hchk⟩
        · intro v hv hvname _
          have hvu : v = u :=
            List.inj_on_of_nodup_map huniq hv hu_mem (by rw [hvname, hu_name])
          subst hvu
          exact hlog
        · intro hcontra
          rw [hlog] at hcontra
          simp at hcontra
      · have hlog : login hashFn db username password
            = (none, Outcome.redirect "login" (some "Invalid username or password.")) := by
          unfold login
          rw [hfind]
          simp [hchk]
        refine ⟨?_, ?_, ?_⟩
        · rw [hlog]
          simp only [Option.isSome_none, Bool.false_eq_true, false_iff]
          rintro ⟨v, hv, hvname, hvchk⟩
          have hvu : v = u :=
            List.inj_on_of_nodup_map huniq hv hu_mem (by rw [hvname, hu_name])
          subst hvu
          exact hchk hvchk
        · intro v hv hvname hvchk
          have hvu : v = u :=
            List.inj_on_of_nodup_map huniq hv hu_mem (by rw [hvname, hu_name])
          subst hvu
          exact absurd hvchk hchk
        · intro _
          rw [hlog]

/-- Concrete salted hash function for witnesses: digest = salt ++ ":" ++ plaintext. -/
def hashW : String → String → String := fun s p => s ++ ":" ++ p

/-- Store for the login witness: alice's stored digest matches password "pw". -/
def dbLogin : DB :=
  ⟨[⟨1, "alice", ⟨"s1", "s1:pw"⟩⟩, ⟨2, "bob", ⟨"s2", "s2:qq"⟩⟩], [], 3, 1⟩

/-- Witness for C2 at a concrete store and credentials. -/
theorem login_success_iff_witness :
    ((dbLogin.users.map (fun u => u.username)).Nodup)
    ∧ (((login hashW dbLogin "alice" "pw").1.isSome = true ↔
          ∃ u, u ∈ dbLogin.users ∧ u.username = "alice" ∧
            check_password_hash hashW u.password "pw" = true)
       ∧ (∀ u, u ∈ dbLogin.users → u.username = "alice" →
            check_password_hash hashW u.password "pw" = true →
            login hashW dbLogin "alice" "pw"
              = (some u.id, Outcome.redirect "index" none))
       ∧ ((login hashW dbLogin "alice" "pw").1 = none →
            (login hashW dbLogin "alice" "pw").2 =
              Outcome.redirect "login" (some "Invalid username or password."))) :=
  ⟨by decide, login_success_iff hashW dbLogin (by decide) "alice" "pw"⟩

/-- C4: `edit_expense` never changes the `id`, `date` or `user_id` of any
stored expense (stated as equality of those projections across the whole
table, and the users table is untouched); when the amount parses and the
target row is owned by the current user, exactly
description/amount/category of that row are overwritten. -/
theorem edit_expense_frame (db : DB) (uid eid : Nat)
    (description amountText category : String) :
    ((edit_expense db uid eid description amountText category).1.expenses.map
        (fun e => (e.id, e.date, e.user_id))
      = db.expenses.map (fun e => (e.id, e.date, e.user_id)))
    ∧ (edit_expense db uid eid description amountText category).1.users = db.users
    ∧ (∀ q, parseAmount amountText = some q →
        ∀ e ∈ db.expenses, e.id = eid → e.user_id = uid →
          ({ e with description := description, amount := q,
                    category := category } : Expense)
            ∈ (edit_expense db uid eid description amountText category).1.expenses) := by
  cases hfind : ownedById db uid eid with
  | none =>
      have hfind' : db.expenses.find? (fun e => e.id == eid && e.user_id == uid)
          = none := hfind
      have hlog : edit_expense db uid eid description amountText category
          = (db, Outcome.notFound) := by
        unfold edit_expense
        rw [hfind]
      rw [hlog]
      refine ⟨rfl, rfl, ?_⟩
      intro q _ e he hid huid
      have h2 := List.find?_eq_none.1 hfind' e he
      simp [hid, huid] at h2
  | some w =>
      cases hparse : parseAmount amountText with
      | none =>
          have hlog : edit_expense db uid eid description amountText category
              = (db, Outcome.serverError
                  "ValueError: could not convert string to float") := by
            unfold edit_expense
            rw [hfind, hparse]
          rw [hlog]
          refine ⟨rfl, rfl, ?_⟩
          intro q hq
          exact Option.noConfusion hq
      | some q0 =>
          have hlog : edit_expense db uid eid description amountText category
              = ({ db with
                    expenses := db.expenses.map (fun e =>
                      if e.id == eid && e.user_id == uid then
                        { e with description := description, amount := q0,
                                 category := category }
                      else e) },
                 Outcome.redirect "view_expenses"
                   (some "Expense updated successfully!")) := by
            unfold edit_expense
            rw [hfind, hparse]
          rw [hlog]
          refine ⟨?_, rfl, ?_⟩
          · rw [List.map_map]
            apply List.map_congr_left
            intro e _
            by_cases hc : (e.id == eid && e.user_id == uid) = true
            · simp [Function.comp, hc]
            · simp [Function.comp, hc]
          · intro q hq e he hid huid
            injection hq with hq
            subst hq
            have hcond : (e.id == eid && e.user_id == uid) = true := by
              simp [hid, huid]
            refine List.mem_map.2 ⟨e, he, ?_⟩
            simp [hcond]

/-- Witness for C4: editing expense 1 as its owner (user 1) with amount "7.5". -/
theorem edit_expense_frame_witness :
    parseAmount "7.5" = some (15/2 : ℚ)
    ∧ (((edit_expense dbOther 1 1 "weekly shop" "7.5" "groceries").1.expenses.map
          (fun e => (e.id, e.date, e.user_id))
        = dbOther.expenses.map (fun e => (e.id, e.date, e.user_id)))
       ∧ (edit_expense dbOther 1 1 "weekly shop" "7.5" "groceries").1.users
          = dbOther.users
       ∧ (∀ q, parseAmount "7.5" = some q →
          ∀ e ∈ dbOther.expenses, e.id = 1 → e.user_id = 1 →
            ({ e with description := "weekly shop", amount := q,
                      category := "groceries" } : Expense)
              ∈ (edit_expense dbOther 1 1 "weekly shop" "7.5" "groceries").1.expenses)) := by
  constructor
  · show parseAmount "7.5" = some (15/2 : ℚ)
    simp [parseAmount]
    norm_num
  · exact edit_expense_frame dbOther 1 1 "weekly shop" "7.5" "groceries"

/-- C10: owner scoping as a frame property.  Mutating operations performed as
user `uid` (`add_expense`, `edit_expense`, `delete_expense`) leave every other
user `v`'s set of expense rows — each row with all its fields — unchanged, and
never touch the users table; the read operations (`view_expenses`,
`show_summary`) depend only on the expenses owned by `uid`: two stores that
agree on `uid`'s rows produce identical results. -/
theorem owner_scoping_frame (db db2 : DB) (uid v : Nat) (hv : v ≠ uid)
    (description amountText category : String) (eid : Nat) (now : Date)
    (hread : db.expenses.filter (fun e => e.user_id == uid)
           = db2.expenses.filter (fun e => e.user_id == uid)) :
    ((add_expense db uid description amountText category now).1.expenses.filter
        (fun e => e.user_id == v) = db.expenses.filter (fun e => e.user_id == v))
    ∧ ((edit_expense db uid eid description amountText category).1.expenses.filter
        (fun e => e.user_id == v) = db.expenses.filter (fun e => e.user_id == v))
    ∧ ((delete_expense db uid eid).1.expenses.filter (fun e => e.user_id == v)
        = db.expenses.filter (fun e => e.user_id == v))
    ∧ (add_expense db uid description amountText category now).1.users = db.users
    ∧ (edit_expense db uid eid description amountText category).1.users = db.users
    ∧ (delete_expense db uid eid).1.users = db.users
    ∧ (∀ cf, view_expenses db uid cf = view_expenses db2 uid cf)
    ∧ show_summary db uid = show_summary db2 uid := by
  have hne : (uid == v) = false := by
    rw [beq_eq_false_iff_ne]
    exact fun h => hv h.symm
  refine ⟨?_, ?_, ?_, ?_, ?_, ?_, ?_, ?_⟩
  · cases hparse : parseAmount amountText with
    | none =>
        unfold add_expense
        rw [hparse]
    | some q =>
        unfold add_expense
        rw [hparse]
        simp [List.filter_append, List.filter_cons, hne]
  · cases hfind : ownedById db uid eid with
    | none =>
        unfold edit_expense
        rw [hfind]
    | some w =>
        cases hparse : parseAmount amountText with
        | none =>
            unfold edit_expense
            rw [hfind, hparse]
        | some q =>
            unfold edit_expense
            rw [hfind, hparse]
            apply filter_map_eq_filter
            · intro a
              by_cases hc : (a.id == eid && a.user_id == uid) = true
              · simp [hc]
              · simp [hc]
            · intro a hpa
              have hav : a.user_id = v := by simpa using hpa
              have huidf : (a.user_id == uid) = false := by
                rw [hav, beq_eq_false_iff_ne]
                exact hv
              simp [huidf]
  · cases hfind : ownedById db uid eid with
    | none =>
        unfold delete_expense
        rw [hfind]
    | some w =>
        unfold delete_expense
        rw [hfind]
        apply filter_filter_of_imp
        intro a hpa
        have hav : a.user_id = v := by simpa using hpa
        have huidf : (a.user_id == uid) = false := by
          rw [hav, beq_eq_false_iff_ne]
          exact hv
        simp [huidf]
  · unfold add_expense
    cases hparse : parseAmount amountText <;> rfl
  · unfold edit_expense
    cases hfind : ownedById db uid eid with
    | none => rfl
    | some w => cases hparse : parseAmount amountText <;> rfl
  · unfold delete_expense
    cases hfind : ownedById db uid eid <;> rfl
  · intro cf
    unfold view_expenses
    rw [hread]
  · unfold show_summary
    rw [hread]

/-- Stores for the C10 witness: `dbF2` differs from `dbF1` only in a third
user's expense, so both agree on user 1's rows. -/
def dbF1 : DB :=
  ⟨[⟨1, "alice", ⟨"s1", "h1"⟩⟩, ⟨2, "bob", ⟨"s2", "h2"⟩⟩],
   [⟨1, "groceries", 10, "food", ⟨2024, 1, 5⟩, 1⟩,
    ⟨2, "bus", 3, "transport", ⟨2024, 1, 6⟩, 2⟩], 3, 3⟩

def dbF2 : DB :=
  ⟨[⟨1, "alice", ⟨"s1", "h1"⟩⟩, ⟨2, "bob", ⟨"s2", "h2"⟩⟩],
   [⟨1, "groceries", 10, "food", ⟨2024, 1, 5⟩, 1⟩,
    ⟨2, "bus", 3, "transport", ⟨2024, 1, 6⟩, 2⟩,
    ⟨3, "cinema", 8, "fun", ⟨2024, 1, 7⟩, 3⟩], 3, 4⟩

/-- Witness for C10: user 1 acting on the store never disturbs user 2's rows,
and user 1's read operations agree across `dbF1`/`dbF2`. -/
theorem owner_scoping_frame_witness :
    ((2 : Nat) ≠ 1
     ∧ dbF1.expenses.filter (fun e => e.user_id == 1)
        = dbF2.expenses.filter (fun e => e.user_id == 1))
    ∧ (((add_expense dbF1 1 "x" "5" "misc" ⟨2024, 2, 2⟩).1.expenses.filter
          (fun e => e.user_id == 2) = dbF1.expenses.filter (fun e => e.user_id == 2))
       ∧ ((edit_expense dbF1 1 1 "x" "5" "misc").1.expenses.filter
            (fun e => e.user_id == 2) = dbF1.expenses.filter (fun e => e.user_id == 2))
       ∧ ((delete_expense dbF1 1 1).1.expenses.filter (fun e => e.user_id == 2)
            = dbF1.expenses.filter (fun e => e.user_id == 2))
       ∧ (add_expense dbF1 1 "x" "5" "misc" ⟨2024, 2, 2⟩).1.users = dbF1.users
       ∧ (edit_expense dbF1 1 1 "x" "5" "misc").1.users = dbF1.users
       ∧ (delete_expense dbF1 1 1).1.users = dbF1.users
       ∧ (∀ cf, view_expenses dbF1 1 cf = view_expenses dbF2 1 cf)
       ∧ show_summary dbF1 1 = show_summary dbF2 1) :=
  ⟨⟨by decide, by decide⟩,
   owner_scoping_frame dbF1 dbF2 1 2 (by decide) "x" "5" "misc" 1 ⟨2024, 2, 2⟩
     (by decide)⟩

/-- C5: `view_expenses` returns exactly the current user's expenses (as a
permutation of the owner-filtered table, restricted to the chosen category
when the filter is present, non-empty and not "all"), sorted by date
descending; and the category selector list is "all" followed by the user's
distinct categories in ascending order. -/
theorem view_expenses_spec (db : DB) (uid : Nat) (cf : Option String) :
    ((∀ c, cf = some c → (c ≠ "" && c ≠ "all") = true →
        (view_expenses db uid cf).1.Perm
          ((db.expenses.filter (fun e => e.user_id == uid)).filter
            (fun e => e.category == c)))
     ∧ ((cf = none ∨ ∃ c, cf = some c ∧ (c ≠ "" && c ≠ "all") = false) →
        (view_expenses db uid cf).1.Perm
          (db.expenses.filter (fun e => e.user_id == uid))))
    ∧ (view_expenses db uid cf).1.Pairwise
        (fun a b => dateLeB b.date a.date = true)
    ∧ (∀ e ∈ (view_expenses db uid cf).1, e.user_id = uid)
    ∧ (∀ c, cf = some c → (c ≠ "" && c ≠ "all") = true →
        ∀ e ∈ (view_expenses db uid cf).1, e.category = c)
    ∧ (view_expenses db uid cf).2.head? = some "all"
    ∧ (view_expenses db uid cf).2.tail.Nodup
    ∧ (view_expenses db uid cf).2.tail.Pairwise (fun a b : String => a ≤ b)
    ∧ (∀ c, c ∈ (view_expenses db uid cf).2.tail ↔
        ∃ e ∈ db.expenses, e.user_id = uid ∧ e.category = c) := by
  have htot : ∀ a b : Expense,
      (fun a b : Expense => dateLeB b.date a.date) a b = true ∨
      (fun a b : Expense => dateLeB b.date a.date) b a = true :=
    fun a b => dateLeB_total b.date a.date
  have htrans : ∀ a b c : Expense,
      (fun a b : Expense => dateLeB b.date a.date) a b = true →
      (fun a b : Expense => dateLeB b.date a.date) b c = true →
      (fun a b : Expense => dateLeB b.date a.date) a c = true :=
    fun a b c h1 h2 => dateLeB_trans c.date b.date a.date h2 h1
  have hsortperm : (sortBy (fun a b : Expense => dateLeB b.date a.date)
      (db.expenses.filter (fun e => e.user_id == uid))).Perm
      (db.expenses.filter (fun e => e.user_id == uid)) := sortBy_perm _ _
  have hsortpw := sortBy_pairwise htot htrans
      (db.expenses.filter (fun e => e.user_id == uid))
  have hsome : ∀ c, (view_expenses db uid (some c)).1
      = if c ≠ "" && c ≠ "all" then
          (sortBy (fun a b : Expense => dateLeB b.date a.date)
            (db.expenses.filter (fun e => e.user_id == uid))).filter
            (fun e => e.category == c)
        else sortBy (fun a b : Expense => dateLeB b.date a.date)
          (db.expenses.filter (fun e => e.user_id == uid)) := fun c => rfl
  have htail : (view_expenses db uid cf).2.tail
      = sortBy (fun a b : String => decide (a ≤ b))
          ((db.expenses.filter (fun e => e.user_id == uid)).map
            (fun e => e.category)).dedup := rfl
  refine ⟨⟨?_, ?_⟩, ?_, ?_, ?_, rfl, ?_, ?_, ?_⟩
  · intro c hcf hc
    subst hcf
    rw [hsome c, if_pos hc]
    exact hsortperm.filter _
  · rintro (rfl | ⟨c, rfl, hc⟩)
    · exact hsortperm
    · rw [hsome c, if_neg (by rw [hc]; simp)]
      exact hsortperm
  · cases cf with
    | none => exact hsortpw
    | some c =>
        rw [hsome c]
        by_cases hc : (c ≠ "" && c ≠ "all") = true
        · rw [if_pos hc]
          exact hsortpw.sublist (List.filter_sublist _)
        · rw [if_neg hc]
          exact hsortpw
  · intro e he
    have hmem : e ∈ db.expenses.filter (fun e => e.user_id == uid) := by
      cases cf with
      | none => exact hsortperm.subset he
      | some c =>
          rw [hsome c] at he
          by_cases hc : (c ≠ "" && c ≠ "all") = true
          · rw [if_pos hc] at he
            exact hsortperm.subset (List.mem_of_mem_filter he)
          · rw [if_neg hc] at he
            exact hsortperm.subset he
    have := (List.mem_filter.1 hmem).2
    simpa using this
  · intro c hcf hc e he
    subst hcf
    rw [hsome c, if_pos hc] at he
    have := (List.mem_filter.1 he).2
    simpa using this
  · rw [htail]
    exact ((sortBy_perm _ _).nodup_iff).2 (List.nodup_dedup _)
  · rw [htail]
    exact (sortBy_pairwise strLeB_total strLeB_trans _).imp
      (fun h => of_decide_eq_true h)
  · intro c
    rw [htail, (sortBy_perm _ _).mem_iff, List.mem_dedup, List.mem_map]
    constructor
    · rintro ⟨e, he, rfl⟩
      rcases List.mem_filter.1 he with ⟨hdb, huid⟩
      exact ⟨e, hdb, by simpa using huid, rfl⟩
    · rintro ⟨e, hdb, huid, rfl⟩
      exact ⟨e, List.mem_filter.2 ⟨hdb, by simpa using huid⟩, rfl⟩

/-- C6: the category-totals accumulation sums amounts grouped exactly by
category — on the claim's concrete input the result is
food ↦ 15.50, transport ↦ 3.25 (in first-occurrence order, as the
`defaultdict` iterates) — and in general every category's entry is the sum of
the user's amounts in that category, each category appearing at most once;
the `/summary` JSON payload carries the same per-category sums restricted to
the current user's expenses. -/
theorem category_totals_spec :
    categoryTotalsBar
        [⟨1, "a", 10, "food", ⟨2024, 1, 5⟩, 1⟩,
         ⟨2, "b", 11/2, "food", ⟨2024, 1, 6⟩, 1⟩,
         ⟨3, "c", 13/4, "transport", ⟨2024, 1, 7⟩, 1⟩]
      = [("food", 31/2), ("transport", 13/4)]
    ∧ (∀ es c, lookupQ (categoryTotalsBar es) c
        = ((es.filter (fun e => e.category == c)).map (fun e => e.amount)).sum)
    ∧ (∀ es, ((categoryTotalsBar es).map Prod.fst).Nodup)
    ∧ (∀ db uid c, lookupQ ((show_summary db uid).category_totals_pie_json) c
        = (((db.expenses.filter (fun e => e.user_id == uid)).filter
            (fun e => e.category == c)).map (fun e => e.amount)).sum) := by
  refine ⟨?_, ?_, ?_, ?_⟩
  · simp [categoryTotalsBar, addToTotals]
    norm_num
  · intro es c
    unfold categoryTotalsBar
    have h := lookupQ_foldTotals (fun e => e.category) es [] c
    simpa [lookupQ] using h
  · intro es
    exact nodup_keys_foldTotals (fun e => e.category) es [] (by simp)
  · intro db uid c
    show lookupQ (categoryTotalsPie _) c = _
    unfold categoryTotalsPie
    have h := lookupQ_foldTotals (fun e => e.category)
      (db.expenses.filter (fun e => e.user_id == uid)) [] c
    simpa [lookupQ] using h

/-- C7: the monthly-totals series buckets strictly by calendar month and sums
per bucket — the claim's two concrete scenarios hold — and in general the
buckets are in ascending month order, each month appears at most once, and
each bucket's value is the sum of the amounts of the expenses dated in that
month. -/
theorem monthly_totals_spec :
    monthlyTotals
        [⟨1, "a", 10, "food", ⟨2024, 1, 5⟩, 1⟩,
         ⟨2, "b", 20, "food", ⟨2024, 1, 28⟩, 1⟩]
      = [((2024, 1), 30)]
    ∧ monthlyTotals
        [⟨1, "a", 10, "food", ⟨2024, 1, 5⟩, 1⟩,
         ⟨2, "b", 20, "food", ⟨2024, 1, 28⟩, 1⟩,
         ⟨3, "c", 5, "transport", ⟨2024, 2, 1⟩, 1⟩]
      = [((2024, 1), 30), ((2024, 2), 5)]
    ∧ (∀ es, (monthlyTotals es).Pairwise (fun a b => monthLeB a.1 b.1 = true))
    ∧ (∀ es k, lookupQ (monthlyTotals es) k
        = ((es.filter (fun e => monthKey e.date == k)).map (fun e => e.amount)).sum)
    ∧ (∀ es, ((monthlyTotals es).map Prod.fst).Nodup) := by
  refine ⟨?_, ?_, ?_, ?_, ?_⟩
  · simp [monthlyTotals, addToTotals, monthKey, sortBy, insertBy, monthLeB]
    norm_num
  · simp [monthlyTotals, addToTotals, monthKey, sortBy, insertBy, monthLeB]
    norm_num
  · intro es
    unfold monthlyTotals
    exact sortBy_pairwise
      (fun (a b : (Nat × Nat) × ℚ) => monthLeB_total a.1 b.1)
      (fun (a b c : (Nat × Nat) × ℚ) h1 h2 => monthLeB_trans a.1 b.1 c.1 h1 h2) _
  · intro es k
    unfold monthlyTotals
    rw [lookupQ_perm (sortBy_perm _ _) k]
    have h := lookupQ_foldTotals (fun e => monthKey e.date) es [] k
    simpa [lookupQ] using h
  · intro es
    unfold monthlyTotals
    have hperm := (sortBy_perm (fun a b : (Nat × Nat) × ℚ => monthLeB a.1 b.1)
      (es.foldl (fun acc e => addToTotals acc (monthKey e.date) e.amount) [])).map
      Prod.fst
    exact hperm.nodup_iff.2
      (nodup_keys_foldTotals (fun e => monthKey e.date) es [] (by simp))

theorem isEmpty_eq_false_of_ne_nil {α : Type} {l : List α} (h : l ≠ []) :
    l.isEmpty = false := by
  cases l with
  | nil => exact absurd rfl h
  | cons a l => rfl

/-- Store for the C9 counterexample: user 1 owns a single expense dated
2024-01-05 with amount 10. -/
def dbC9 : DB :=
  ⟨[⟨1, "alice", ⟨"s1", "h1"⟩⟩],
   [⟨1, "groceries", 10, "food", ⟨2024, 1, 5⟩, 1⟩], 2, 2⟩

/-- C9 counterexample: on a store with one expense, the monthly chart shows
the bucket 2024-01 ↦ 10 while the structured monthly-totals JSON export is
the empty mapping — the JSON export does not equal the chart's totals. -/
theorem summary_monthly_json_counterexample :
    (show_summary dbC9 1).time_series = some [((2024, 1), 10)]
    ∧ (show_summary dbC9 1).monthly_totals_json = []
    ∧ some ((show_summary dbC9 1).monthly_totals_json)
        ≠ (show_summary dbC9 1).time_series := by
  have hts : (show_summary dbC9 1).time_series = some [((2024, 1), 10)] := by
    show generate_time_series_plot
        (dbC9.expenses.filter (fun e => e.user_id == 1)) = some [((2024, 1), 10)]
    simp [dbC9, generate_time_series_plot, monthlyTotals, addToTotals, monthKey,
          sortBy, insertBy]
  have hj : (show_summary dbC9 1).monthly_totals_json = [] := rfl
  refine ⟨hts, hj, ?_⟩
  rw [hts, hj]
  simp

/-- C9 amended: the category-totals JSON export does equal the totals used by
the pie chart and (when it renders) the bar chart — all three come from the
same accumulation — but the monthly-totals JSON export is hardcoded to the
empty mapping (`json.dumps(dict(sorted(defaultdict(float).items())))` on a
fresh defaultdict), so it differs from the monthly chart whenever the current
user has any expense. -/
theorem summary_export_amended (db : DB) (uid : Nat) :
    (show_summary db uid).category_totals_pie_json
      = categoryTotalsPie (db.expenses.filter (fun e => e.user_id == uid))
    ∧ categoryTotalsPie (db.expenses.filter (fun e => e.user_id == uid))
      = categoryTotalsBar (db.expenses.filter (fun e => e.user_id == uid))
    ∧ ((show_summary db uid).bar_totals = none ∨
        (show_summary db uid).bar_totals
          = some ((show_summary db uid).category_totals_pie_json))
    ∧ (show_summary db uid).pie_totals = (show_summary db uid).bar_totals
    ∧ (show_summary db uid).monthly_totals_json = []
    ∧ ((db.expenses.filter (fun e => e.user_id == uid)).isEmpty = false →
        (show_summary db uid).time_series
          ≠ some ((show_summary db uid).monthly_totals_json)) := by
  refine ⟨rfl, rfl, ?_, rfl, rfl, ?_⟩
  · by_cases hempty :
        (categoryTotalsBar (db.expenses.filter (fun e => e.user_id == uid))).isEmpty
          = true
    · left
      show generate_category_bar_chart _ = none
      unfold generate_category_bar_chart
      rw [if_pos hempty]
    · right
      show generate_category_bar_chart _
        = some (categoryTotalsPie (db.expenses.filter (fun e => e.user_id == uid)))
      unfold generate_category_bar_chart
      rw [if_neg hempty]
      exact rfl
  · intro hne
    have howned : db.expenses.filter (fun e => e.user_id == uid) ≠ [] := by
      intro hcon
      rw [hcon] at hne
      simp at hne
    have hmt : monthlyTotals (db.expenses.filter (fun e => e.user_id == uid)) ≠ [] := by
      unfold monthlyTotals
      apply sortBy_ne_nil
      cases hes : db.expenses.filter (fun e => e.user_id == uid) with
      | nil => exact absurd hes howned
      | cons e0 es0 =>
          rw [List.foldl_cons]
          exact foldTotals_ne_nil _ es0 _ addToTotals_ne_nil
    have hts : (show_summary db uid).time_series
        = some (monthlyTotals (db.expenses.filter (fun e => e.user_id == uid))) := by
      show generate_time_series_plot _ = _
      unfold generate_time_series_plot
      simp [hne, isEmpty_eq_false_of_ne_nil hmt]
    have hj : (show_summary db uid).monthly_totals_json = [] := rfl
    rw [hts, hj]
    intro hc
    exact hmt (Option.some.inj hc)
